import Mathlib

/-!
Verification development for the featureflags-go client library.

The Go sources are shallowly embedded: the dynamic `any` values that flow
through contexts, check literals and stored values are modelled by the closed
variant `GoVal` (integers, integral float64 values, strings, booleans, string
slices, and nil).  Operations that can panic at run time in Go (interface
equality on uncomparable slice types) return `Option`, with `none` standing
for a runtime panic; operations that return Go errors are modelled with an
explicit result type.  Machine integers are modelled as `Nat`/`Int` with
explicit reduction modulo 2^32 where the code relies on 32-bit wrap-around.
-/

namespace FeatureFlags

/-- Model of the Go dynamic type `any` restricted to the shapes exercised by
the library: `vInt` for `int`, `vFloat` for a `float64` holding an integral
value (no claim depends on fractional float behaviour), `vStr` for `string`,
`vBool` for `bool`, `vStrList` for `[]string`, `vAnyList` for `[]any` (as
produced by JSON array decoding), `vMap` for `map[string]any` (as produced
by JSON object decoding), and `vNil` for the nil interface.  The dynamic
type is part of the value: `[]string` and `[]any` are distinct Go types and
compare accordingly. -/
inductive GoVal where
  | vInt (n : Int)
  | vFloat (n : Int)
  | vStr (s : String)
  | vBool (b : Bool)
  | vStrList (xs : List String)
  | vAnyList (xs : List GoVal)
  | vMap (xs : List (String × GoVal))
  | vNil
deriving Repr

/-- An evaluation context: Go `map[string]any`, modelled as an association
list.  The empty list models both an empty and a nil map. -/
abbrev Ctx := List (String × GoVal)

/-- Go map lookup `ctx[name]` with its comma-ok result. -/
def Ctx.lookup (ctx : Ctx) (name : String) : Option GoVal :=
  match ctx with
  | [] => none
  | (k, v) :: rest => if k = name then some v else Ctx.lookup rest name

/-- `fmt.Sprintf("%v", x)` for a float64 holding the integral value `n`:
Go uses the shortest `%g` form, which switches to exponent notation exactly
when the decimal exponent is at least 6, i.e. when the magnitude reaches
10^6 (1e+06, 1.234567e+06, ...), and plain decimal digits below that. -/
def goFloatFormat (n : Int) : String :=
  let a := n.natAbs
  let sign := if n < 0 then "-" else ""
  if a < 1000000 then sign ++ toString a
  else
    let s := (toString a).data
    let exp := s.length - 1
    let trimmed := (s.reverse.dropWhile (fun c => c = '0')).reverse
    let mantissa :=
      match trimmed with
      | [] => "0"
      | [d] => String.mk [d]
      | d :: rest => String.mk [d] ++ "." ++ String.mk rest
    sign ++ mantissa ++ "e+" ++ (if exp < 10 then "0" ++ toString exp else toString exp)

mutual

/-- `fmt.Sprintf("%v", x)` for the modelled value shapes.  Go prints slices
as bracketed space-separated elements, maps as `map[k:v ...]`, and a nil
interface as `<nil>`.  (fmt sorts map keys; the model prints entries in
stored order — no claim inspects map formatting.) -/
def goFormat : GoVal → String
  | .vInt n => toString n
  | .vFloat n => goFloatFormat n
  | .vStr s => s
  | .vBool b => if b then "true" else "false"
  | .vStrList xs => "[" ++ String.intercalate " " xs ++ "]"
  | .vAnyList xs => "[" ++ goFormatSpaced xs ++ "]"
  | .vMap xs => "map[" ++ goFormatEntries xs ++ "]"
  | .vNil => "<nil>"

def goFormatSpaced : List GoVal → String
  | [] => ""
  | [x] => goFormat x
  | x :: rest => goFormat x ++ " " ++ goFormatSpaced rest

def goFormatEntries : List (String × GoVal) → String
  | [] => ""
  | [(k, v)] => k ++ ":" ++ goFormat v
  | (k, v) :: rest => k ++ ":" ++ goFormat v ++ " " ++ goFormatEntries rest

end

/-- Go `toFloat64` from the source: succeeds on the numeric cases, fails on
strings and everything else.  Numeric values are carried as `Int` (the model
has no fractional floats). -/
def toFloat64 : GoVal → Option Int
  | .vInt n => some n
  | .vFloat n => some n
  | _ => none

/-- Go `toString` from the source: a string is returned as is, every other
value is rendered with `fmt.Sprintf("%v", v)`; the ok flag is always true. -/
def goToString (v : GoVal) : String := goFormat v

/-- Go `toStringSlice` from the source: a `[]string` converts as is, a
`[]any` has every element stringified (the Go `toString` never fails, so the
`[]any` branch always succeeds); every other shape fails. -/
def toStringSlice : GoVal → Option (List String)
  | .vStrList xs => some xs
  | .vAnyList xs => some (xs.map goToString)
  | _ => none

/-- Do two interface values have the identical uncomparable dynamic type?
Among the modelled shapes these are the slice types `[]string` and `[]any`
and the map type `map[string]any`; Go `==` panics exactly on such a pair
(e.g. `[]any` vs `[]string` is merely unequal, two `[]any` panic). -/
def goUncomparable : GoVal → GoVal → Bool
  | .vStrList _, .vStrList _ => true
  | .vAnyList _, .vAnyList _ => true
  | .vMap _, .vMap _ => true
  | _, _ => false

/-- Value equality for comparable dynamic types: identical comparable types
compare by value, different dynamic types compare unequal (uncomparable
pairs never reach this function through `goEq`). -/
def goEqB : GoVal → GoVal → Bool
  | .vInt a, .vInt b => a == b
  | .vFloat a, .vFloat b => a == b
  | .vStr a, .vStr b => a == b
  | .vBool a, .vBool b => a == b
  | .vNil, .vNil => true
  | _, _ => false

/-- Go interface equality `a == b`: comparing two values of the identical
uncomparable dynamic type panics at run time (`none`); otherwise the
comparison returns normally. -/
def goEq (a b : GoVal) : Option Bool :=
  if goUncomparable a b then none else some (goEqB a b)

/-! ### MD5 (crypto/md5), needed by hashFlagValue -/

/-- Little-endian serialization of `x` into `n` bytes. -/
def toLEBytes : Nat → Nat → List Nat
  | 0, _ => []
  | n + 1, x => (x % 256) :: toLEBytes n (x / 256)

/-- Little-endian interpretation of a byte list as an unsigned integer. -/
def fromLE : List Nat → Nat
  | [] => 0
  | b :: rest => b + 256 * fromLE rest

/-- UTF-8 encoding of one code point. -/
def utf8Char (c : Char) : List Nat :=
  let n := c.toNat
  if n < 128 then [n]
  else if n < 2048 then [192 ||| (n >>> 6), 128 ||| (n &&& 63)]
  else if n < 65536 then
    [224 ||| (n >>> 12), 128 ||| ((n >>> 6) &&& 63), 128 ||| (n &&& 63)]
  else
    [240 ||| (n >>> 18), 128 ||| ((n >>> 12) &&& 63),
     128 ||| ((n >>> 6) &&& 63), 128 ||| (n &&& 63)]

/-- UTF-8 bytes of a string (Go strings are UTF-8 byte sequences). -/
def utf8Bytes (s : String) : List Nat := s.data.flatMap utf8Char

/-- 32-bit left rotation. -/
def rotl32 (x s : Nat) : Nat := ((x <<< s) ||| (x >>> (32 - s))) % 4294967296

/-- 32-bit complement. -/
def bnot32 (x : Nat) : Nat := x ^^^ 4294967295

/-- MD5 per-round shift amounts. -/
def md5S : List Nat :=
  [7, 12, 17, 22, 7, 12, 17, 22, 7, 12, 17, 22, 7, 12, 17, 22,
   5, 9, 14, 20, 5, 9, 14, 20, 5, 9, 14, 20, 5, 9, 14, 20,
   4, 11, 16, 23, 4, 11, 16, 23, 4, 11, 16, 23, 4, 11, 16, 23,
   6, 10, 15, 21, 6, 10, 15, 21, 6, 10, 15, 21, 6, 10, 15, 21]

/-- MD5 round constants, K[i] = floor(2^32 * abs(sin(i + 1))). -/
def md5K : List Nat :=
  [0xd76aa478, 0xe8c7b756, 0x242070db, 0xc1bdceee,
   0xf57c0faf, 0x4787c62a, 0xa8304613, 0xfd469501,
   0x698098d8, 0x8b44f7af, 0xffff5bb1, 0x895cd7be,
   0x6b901122, 0xfd987193, 0xa679438e, 0x49b40821,
   0xf61e2562, 0xc040b340, 0x265e5a51, 0xe9b6c7aa,
   0xd62f105d, 0x02441453, 0xd8a1e681, 0xe7d3fbc8,
   0x21e1cde6, 0xc33707d6, 0xf4d50d87, 0x455a14ed,
   0xa9e3e905, 0xfcefa3f8, 0x676f02d9, 0x8d2a4c8a,
   0xfffa3942, 0x8771f681, 0x6d9d6122, 0xfde5380c,
   0xa4beea44, 0x4bdecfa9, 0xf6bb4b60, 0xbebfbc70,
   0x289b7ec6, 0xeaa127fa, 0xd4ef3085, 0x04881d05,
   0xd9d4d039, 0xe6db99e5, 0x1fa27cf8, 0xc4ac5665,
   0xf4292244, 0x432aff97, 0xab9423a7, 0xfc93a039,
   0x655b59c3, 0x8f0ccc92, 0xffeff47d, 0x85845dd1,
   0x6fa87e4f, 0xfe2ce6e0, 0xa3014314, 0x4e0811a1,
   0xf7537e82, 0xbd3af235, 0x2ad7d2bb, 0xeb86d391]

/-- MD5 nonlinear function for round `i`. -/
def md5F (i b c d : Nat) : Nat :=
  if i < 16 then (b &&& c) ||| (bnot32 b &&& d)
  else if i < 32 then (d &&& b) ||| (bnot32 d &&& c)
  else if i < 48 then b ^^^ c ^^^ d
  else c ^^^ (b ||| bnot32 d)

/-- MD5 message-word index for round `i`. -/
def md5G (i : Nat) : Nat :=
  if i < 16 then i
  else if i < 32 then (5 * i + 1) % 16
  else if i < 48 then (3 * i + 5) % 16
  else (7 * i) % 16

/-- One MD5 round applied to the state (a, b, c, d). -/
def md5Round (m : List Nat) (st : Nat × Nat × Nat × Nat) (i : Nat) :
    Nat × Nat × Nat × Nat :=
  let a := st.1
  let b := st.2.1
  let c := st.2.2.1
  let d := st.2.2.2
  let f := (md5F i b c d + a + md5K.getD i 0 + m.getD (md5G i) 0) % 4294967296
  (d, (b + rotl32 f (md5S.getD i 0)) % 4294967296, b, c)

/-- Split a 64-byte chunk into its 16 little-endian message words. -/
def md5Words (chunk : List Nat) : List Nat :=
  (List.range 16).map (fun j => fromLE ((chunk.drop (4 * j)).take 4))

/-- Process one 64-byte chunk, updating the running digest state. -/
def md5Chunk (st : Nat × Nat × Nat × Nat) (chunk : List Nat) :
    Nat × Nat × Nat × Nat :=
  let m := md5Words chunk
  let r := (List.range 64).foldl (md5Round m) st
  ((st.1 + r.1) % 4294967296, (st.2.1 + r.2.1) % 4294967296,
   (st.2.2.1 + r.2.2.1) % 4294967296, (st.2.2.2 + r.2.2.2) % 4294967296)

/-- MD5 padding: append 0x80, zero bytes to 56 mod 64, then the bit length
as 8 little-endian bytes. -/
def md5Pad (msg : List Nat) : List Nat :=
  let len := msg.length
  let k := (120 - ((len + 1) % 64)) % 64
  msg ++ [128] ++ List.replicate k 0 ++ toLEBytes 8 ((len * 8) % 18446744073709551616)

/-- Split a list into 64-byte chunks. -/
def chunks64 (l : List Nat) : List (List Nat) :=
  if h : l = [] then []
  else l.take 64 :: chunks64 (l.drop 64)
termination_by l.length
decreasing_by
  simp only [List.length_drop]
  have : 0 < l.length := List.length_pos.mpr h
  omega

/-- MD5 digest of a byte sequence, as 16 bytes. -/
def md5 (msg : List Nat) : List Nat :=
  let st := (chunks64 (md5Pad msg)).foldl md5Chunk
    (0x67452301, 0xefcdab89, 0x98badcfe, 0x10325476)
  toLEBytes 4 st.1 ++ toLEBytes 4 st.2.1 ++ toLEBytes 4 st.2.2.1 ++ toLEBytes 4 st.2.2.2

/-- Go `hashFlagValue`: MD5 of `fmt.Sprintf("%s%v", name, value)` with the
last 4 digest bytes read as a little-endian uint32. -/
def hashFlagValue (name : String) (value : GoVal) : Nat :=
  let data := name ++ goFormat value
  let hash := md5 (utf8Bytes data)
  fromLE ((hash.drop 12).take 4)

/-! ### Wire data model -/

/-- Go `CheckVariable`.  The Go field `Type` (a `VariableType` wire integer)
is named `VarType` here because `Type` is a Lean keyword; the evaluator never
reads it. -/
structure CheckVariable where
  Name : String
  VarType : Nat
deriving DecidableEq, Repr

/-- Go `Check`: one atomic comparison.  `Value` is the dynamic literal; the
Go nil literal is `GoVal.vNil`.  `Operator` is the wire integer 1..11. -/
structure Check where
  Operator : Nat
  Variable : CheckVariable
  Value : GoVal
deriving Repr

/-- Go `Condition`: an AND-group of checks. -/
structure Condition where
  Checks : List Check
deriving Repr

/-- Go `ValueCondition`: an AND-group of checks with an override value. -/
structure ValueCondition where
  Checks : List Check
  ValueOverride : GoVal
deriving Repr

/-- Go `FlagResponse`. -/
structure FlagResponse where
  Name : String
  Enabled : Bool
  Overridden : Bool
  Conditions : List Condition
deriving Repr

/-- Go `ValueResponse`. -/
structure ValueResponse where
  Name : String
  Enabled : Bool
  Overridden : Bool
  ValueDefault : GoVal
  ValueOverride : GoVal
  Conditions : List ValueCondition
deriving Repr

/-! ### Operator library

Each Go operator builds a closure `(name, literal) -> func(ctx) bool`.  The
closures are modelled as functions `Ctx -> Option Bool`, where `none` stands
for a runtime panic (only interface equality on two slice values can panic).
-/

/-- Go `opEqual`: comma-ok lookup, then interface equality. -/
def opEqual (name : String) (value : GoVal) (ctx : Ctx) : Option Bool :=
  match Ctx.lookup ctx name with
  | none => some false
  | some ctxVal => goEq ctxVal value

/-- Go `opLessThan`: numeric comparison when both sides convert, otherwise
lexicographic comparison of the string representations. -/
def opLessThan (name : String) (value : GoVal) (ctx : Ctx) : Option Bool :=
  let target? := toFloat64 value
  match Ctx.lookup ctx name with
  | none => some false
  | some ctxVal =>
    match target?, toFloat64 ctxVal with
    | some t, some c => some (decide (c < t))
    | _, _ => some (decide (goToString ctxVal < goToString value))

/-- Go `opLessOrEqual`. -/
def opLessOrEqual (name : String) (value : GoVal) (ctx : Ctx) : Option Bool :=
  let target? := toFloat64 value
  match Ctx.lookup ctx name with
  | none => some false
  | some ctxVal =>
    match target?, toFloat64 ctxVal with
    | some t, some c => some (decide (c ≤ t))
    | _, _ => some (decide (goToString ctxVal ≤ goToString value))

/-- Go `opGreaterThan`. -/
def opGreaterThan (name : String) (value : GoVal) (ctx : Ctx) : Option Bool :=
  let target? := toFloat64 value
  match Ctx.lookup ctx name with
  | none => some false
  | some ctxVal =>
    match target?, toFloat64 ctxVal with
    | some t, some c => some (decide (t < c))
    | _, _ => some (decide (goToString value < goToString ctxVal))

/-- Go `opGreaterOrEqual`. -/
def opGreaterOrEqual (name : String) (value : GoVal) (ctx : Ctx) : Option Bool :=
  let target? := toFloat64 value
  match Ctx.lookup ctx name with
  | none => some false
  | some ctxVal =>
    match target?, toFloat64 ctxVal with
    | some t, some c => some (decide (t ≤ c))
    | _, _ => some (decide (goToString value ≤ goToString ctxVal))

/-- Does `pre` lead the character list `s`? (strings.HasPrefix on chars). -/
def leadsWith : List Char → List Char → Bool
  | [], _ => true
  | _ :: _, [] => false
  | a :: as, b :: bs => a == b && leadsWith as bs

/-- `strings.Contains` on character lists. -/
def hasSub (s sub : List Char) : Bool :=
  leadsWith sub s ||
    match s with
    | [] => false
    | _ :: t => hasSub t sub

/-- `strings.Contains`. -/
def goContains (s sub : String) : Bool := hasSub s.data sub.data

/-- Go `opContains`: stringify both sides, substring containment. -/
def opContains (name : String) (value : GoVal) (ctx : Ctx) : Option Bool :=
  let valStr := goToString value
  match Ctx.lookup ctx name with
  | none => some false
  | some ctxVal => some (goContains (goToString ctxVal) valStr)

/-- Go `uint32(threshold)` for a float64 carried as `Int`; conversion of an
out-of-range float to uint32 is platform-specific in Go, the claims only
exercise thresholds in 0..100. -/
def goUint32 (n : Int) : Nat := n.toNat % 4294967296

/-- Go `opPercent`: non-numeric threshold compiles to an always-false
predicate; otherwise `hash % 100 < uint32(threshold)` on the present value. -/
def opPercent (name : String) (value : GoVal) (ctx : Ctx) : Option Bool :=
  match toFloat64 value with
  | none => some false
  | some threshold =>
    match Ctx.lookup ctx name with
    | none => some false
    | some ctxVal => some (decide (hashFlagValue name ctxVal % 100 < goUint32 threshold))

/-- Token of the miniature regular-expression model. -/
inductive RTok where
  | lit (c : Char)
  | anyChar
  | anyStar
  | anchorEnd
deriving DecidableEq, Repr

/-- Parse a pattern body into tokens.  The model covers exactly the fragment
produced by the wildcard compiler (escaped literals, `(?:.*)`, `.*`, `.`,
`$`); no claim depends on the behaviour of other regex constructs. -/
def parseRegex : List Char → List RTok
  | [] => []
  | '\\' :: c :: rest => .lit c :: parseRegex rest
  | '\\' :: [] => []
  | '$' :: rest => .anchorEnd :: parseRegex rest
  | '(' :: '?' :: ':' :: '.' :: '*' :: ')' :: rest => .anyStar :: parseRegex rest
  | '.' :: '*' :: rest => .anyStar :: parseRegex rest
  | '.' :: rest => .anyChar :: parseRegex rest
  | c :: rest => .lit c :: parseRegex rest

/-- Match a token list against a character list starting at its head;
trailing characters are allowed unless an end anchor is hit. -/
def rmatch : List RTok → List Char → Bool
  | [], _ => true
  | .anchorEnd :: _, s => s.isEmpty
  | .lit c :: ts, s =>
    match s with
    | [] => false
    | x :: xs => c == x && rmatch ts xs
  | .anyChar :: ts, s =>
    match s with
    | [] => false
    | _ :: xs => rmatch ts xs
  | .anyStar :: ts, s =>
    (List.range (s.length + 1)).any (fun i => rmatch ts (s.drop i))

/-- Unanchored match (regexp MatchString): a leading `^` pins the match to
the start, otherwise any starting offset is tried. -/
def goRegexMatch (pattern s : String) : Bool :=
  match pattern.data with
  | '^' :: rest => rmatch (parseRegex rest) s.data
  | toks => (List.range (s.length + 1)).any (fun i => rmatch (parseRegex toks) (s.data.drop i))

/-- Whether `regexp.Compile` succeeds: modelled as a balanced-parenthesis
check.  No claim depends on which patterns compile, only on the fail-closed
structure of `opRegexp`. -/
def goRegexCompiles (pattern : String) : Bool :=
  (pattern.data.foldl
    (fun acc c =>
      match acc with
      | none => none
      | some depth =>
        if c = '(' then some (depth + 1)
        else if c = ')' then (if depth = 0 then none else some (depth - 1))
        else some depth)
    (some 0)) == some 0

/-- Go `opRegexp`: a pattern that fails to compile yields an always-false
predicate; otherwise match the stringified context value. -/
def opRegexp (name : String) (value : GoVal) (ctx : Ctx) : Option Bool :=
  let pattern := goToString value
  if goRegexCompiles pattern then
    match Ctx.lookup ctx name with
    | none => some false
    | some ctxVal => some (goRegexMatch pattern (goToString ctxVal))
  else some false

/-- The characters escaped by `regexp.QuoteMeta`. -/
def quoteMetaSpecial : List Char :=
  ['\\', '.', '+', '*', '?', '(', ')', '|', '[', ']',
   Char.ofNat 123, Char.ofNat 125, '^', '$']

/-- `regexp.QuoteMeta`. -/
def quoteMeta (s : String) : String :=
  ⟨s.data.flatMap (fun c => if quoteMetaSpecial.contains c then ['\\', c] else [c])⟩

/-- Go `opWildcard`: split the glob on `*`, escape each part, join with an
unrestricted-match token, anchor, and delegate to `opRegexp`. -/
def opWildcard (name : String) (value : GoVal) (ctx : Ctx) : Option Bool :=
  let pattern := goToString value
  let parts := (pattern.splitOn "*").map quoteMeta
  let regexPattern := "^" ++ String.intercalate "(?:.*)" parts ++ "$"
  opRegexp name (.vStr regexPattern) ctx

/-- Go `opSubset`: the context collection must be non-empty and contained in
the non-empty server collection. -/
def opSubset (name : String) (value : GoVal) (ctx : Ctx) : Option Bool :=
  match toStringSlice value with
  | none => some false
  | some valSlice =>
    if valSlice.isEmpty then some false
    else
      match Ctx.lookup ctx name with
      | none => some false
      | some ctxVal =>
        match toStringSlice ctxVal with
        | none => some false
        | some ctxSlice =>
          some (!ctxSlice.isEmpty && ctxSlice.all (fun item => valSlice.contains item))

/-- Go `opSuperset`: the non-empty server collection must be contained in
the non-empty context collection. -/
def opSuperset (name : String) (serverValue : GoVal) (ctx : Ctx) : Option Bool :=
  match toStringSlice serverValue with
  | none => some false
  | some serverSlice =>
    if serverSlice.isEmpty then some false
    else
      match Ctx.lookup ctx name with
      | none => some false
      | some ctxVal =>
        match toStringSlice ctxVal with
        | none => some false
        | some ctxSlice =>
          some (!ctxSlice.isEmpty && serverSlice.all (fun item => ctxSlice.contains item))

/-- Is a dynamic value the nil interface (the Go `check.Value == nil` test
in `checkProc`)? -/
def GoVal.isNil : GoVal → Bool
  | .vNil => true
  | _ => false

/-- Go `checkProc`: a nil literal or an operator outside the `operatorFuncs`
table compiles to an always-false predicate; otherwise dispatch on the
operator code. -/
def checkEval (check : Check) (ctx : Ctx) : Option Bool :=
  if check.Value.isNil then some false
  else
    match check.Operator with
    | 1 => opEqual check.Variable.Name check.Value ctx
    | 2 => opLessThan check.Variable.Name check.Value ctx
    | 3 => opLessOrEqual check.Variable.Name check.Value ctx
    | 4 => opGreaterThan check.Variable.Name check.Value ctx
    | 5 => opGreaterOrEqual check.Variable.Name check.Value ctx
    | 6 => opContains check.Variable.Name check.Value ctx
    | 7 => opPercent check.Variable.Name check.Value ctx
    | 8 => opRegexp check.Variable.Name check.Value ctx
    | 9 => opWildcard check.Variable.Name check.Value ctx
    | 10 => opSubset check.Variable.Name check.Value ctx
    | 11 => opSuperset check.Variable.Name check.Value ctx
    | _ => some false

/-- The AND loop over a compiled condition: stop at the first false check,
propagate a panic. -/
def runChecks : List Check → Ctx → Option Bool
  | [], _ => some true
  | c :: rest, ctx =>
    match checkEval c ctx with
    | none => none
    | some false => some false
    | some true => runChecks rest ctx

/-- Evaluation of one compiled condition.  The compiler replaces an empty
check list by a single always-false check, so an empty condition evaluates
to false. -/
def condEval (checks : List Check) (ctx : Ctx) : Option Bool :=
  match checks with
  | [] => some false
  | cs => runChecks cs ctx

/-! ### Condition compiler (flagProc / valueProc)

The Go compilers return closures; here they return first-order data with an
explicit evaluation function, so that stored state is comparable. -/

/-- Compiled form of a flag predicate: either the OR-of-ANDs over the
conditions (each condition kept as its check list), or a constant. -/
inductive FlagProcR where
  | conds (cs : List (List Check))
  | const (b : Bool)
deriving Repr

/-- The OR loop of a compiled flag predicate: stop at the first passing
condition, propagate a panic. -/
def orConds : List (List Check) → Ctx → Option Bool
  | [], _ => some false
  | c :: rest, ctx =>
    match condEval c ctx with
    | none => none
    | some true => some true
    | some false => orConds rest ctx

/-- Evaluate a compiled flag predicate against a context. -/
def FlagProcR.eval : FlagProcR → Ctx → Option Bool
  | .conds cs, ctx => orConds cs ctx
  | .const b, _ => some b

/-- Go `flagProc`: `none` models the nil `FlagProc` returned for a flag the
server did not override; conditions are only consulted when the flag is
enabled and has conditions, otherwise the constant `enabled` is compiled. -/
def flagProc (flag : FlagResponse) : Option FlagProcR :=
  if !flag.Overridden then none
  else if flag.Enabled && !flag.Conditions.isEmpty then
    some (.conds (flag.Conditions.map (·.Checks)))
  else some (.const flag.Enabled)

/-- Compiled form of a value evaluator: first-match over the conditions with
a base override fallback, or a constant. -/
inductive ValueProcR where
  | condsV (cs : List (List Check × GoVal)) (base : GoVal)
  | const (v : GoVal)
deriving Repr

/-- The first-match loop of a compiled value evaluator: return the override
of the first passing condition, the base override when none passes,
propagate a panic. -/
def firstMatch : List (List Check × GoVal) → GoVal → Ctx → Option GoVal
  | [], base, _ => some base
  | c :: rest, base, ctx =>
    match condEval c.1 ctx with
    | none => none
    | some true => some c.2
    | some false => firstMatch rest base ctx

/-- Evaluate a compiled value evaluator against a context. -/
def ValueProcR.eval : ValueProcR → Ctx → Option GoVal
  | .condsV cs base, ctx => firstMatch cs base ctx
  | .const v, _ => some v

/-- Go `valueProc`: a non-overridden value compiles to the constant default;
an overridden, enabled value with conditions compiles to the ordered
first-match evaluator with the base override as fallback; otherwise the
constant base override. -/
def valueProc (value : ValueResponse) : ValueProcR :=
  if !value.Overridden then .const value.ValueDefault
  else if value.Enabled && !value.Conditions.isEmpty then
    .condsV (value.Conditions.map (fun c => (c.Checks, c.ValueOverride))) value.ValueOverride
  else .const value.ValueOverride

/-! ### Versioned state store -/

/-- Go `FlagState`: the `Enabled` field holds the caller-registered default;
`Proc` is the compiled predicate (nil when the server never overrode). -/
structure FlagState where
  Name : String
  Enabled : Bool
  Proc : Option FlagProcR
deriving Repr

/-- Go `ValueState`. -/
structure ValueState where
  Name : String
  Value : GoVal
  DefaultValue : GoVal
  IsOverridden : Bool
  Proc : Option ValueProcR
deriving Repr

/-- Association-list lookup, modelling Go map indexing. -/
def alookup {α : Type} : List (String × α) → String → Option α
  | [], _ => none
  | (k, v) :: rest, key => if k = key then some v else alookup rest key

/-- Association-list insert-or-overwrite, modelling Go map assignment. -/
def upsert {α : Type} : List (String × α) → String → α → List (String × α)
  | [], key, v => [(key, v)]
  | (k, w) :: rest, key, v =>
    if k = key then (key, v) :: rest else (k, w) :: upsert rest key v

/-- Go `State`. -/
structure State where
  flagState : List (String × FlagState)
  flagNames : List String
  valueState : List (String × ValueState)
  valueNames : List String
  version : Int
deriving Repr

/-- One iteration of the flag loop in `State.Update`: preserve the existing
default enabled value when the key exists, recompile the predicate. -/
def updateFlag (m : List (String × FlagState)) (flag : FlagResponse) :
    List (String × FlagState) :=
  let defaultEnabled :=
    match alookup m flag.Name with
    | some existing => existing.Enabled
    | none => false
  upsert m flag.Name { Name := flag.Name, Enabled := defaultEnabled, Proc := flagProc flag }

/-- One iteration of the value loop in `State.Update`: preserve the existing
default when the key exists, otherwise seed it from the payload default;
replace current value, override flag and compiled evaluator. -/
def updateValue (m : List (String × ValueState)) (value : ValueResponse) :
    List (String × ValueState) :=
  let defaultVal :=
    match alookup m value.Name with
    | some existing => existing.DefaultValue
    | none => value.ValueDefault
  upsert m value.Name
    { Name := value.Name, Value := value.ValueOverride, DefaultValue := defaultVal,
      IsOverridden := value.Overridden, Proc := some (valueProc value) }

/-- Go `State.Update`: a payload carrying the stored version is ignored;
otherwise the version is set and every payload entry is merged. -/
def State.Update (state : State) (version : Int) (flags : List FlagResponse)
    (values : List ValueResponse) : State :=
  if state.version = version then state
  else
    { state with
      version := version
      flagState := flags.foldl updateFlag state.flagState
      valueState := values.foldl updateValue state.valueState }

/-! ### Readers and typed accessors -/

/-- Go `getFlagState`: unknown flag evaluates to false, a flag without a
compiled predicate to its stored default, otherwise the predicate runs
(`none` models a panic escaping the read). -/
def getFlagState (state : State) (name : String) (ctx : Ctx) : Option Bool :=
  match alookup state.flagState name with
  | none => some false
  | some flagState =>
    match flagState.Proc with
    | none => some flagState.Enabled
    | some p => p.eval ctx

/-- Go `getValueState`: unknown value evaluates to nil, a value without a
compiled evaluator to its stored current value, otherwise the evaluator runs
(`none` models a panic escaping the read). -/
def getValueState (state : State) (name : String) (ctx : Ctx) : Option GoVal :=
  match alookup state.valueState name with
  | none => some .vNil
  | some valueState =>
    match valueState.Proc with
    | none => some valueState.Value
    | some p => p.eval ctx

/-- Outcome of an accessor call: an ordinary return, a returned `error`, or
a runtime panic / fatal abort. -/
inductive GoResult (α : Type) where
  | ok (a : α)
  | err (msg : String)
  | crash
deriving DecidableEq, Repr

/-- Go `Get` (flag read): the evaluated boolean, with a panic propagating. -/
def Get (state : State) (name : String) (ctx : Ctx) : GoResult Bool :=
  match getFlagState state name ctx with
  | none => .crash
  | some b => .ok b

/-- Go `GetValue`: the raw evaluated value, with a panic propagating. -/
def GetValue (state : State) (name : String) (ctx : Ctx) : GoResult GoVal :=
  match getValueState state name ctx with
  | none => .crash
  | some v => .ok v

/-- Go `GetValueInt`: nil evaluates to a not-found error, `int` is returned
directly, `float64` is truncated, anything else is a cast error. -/
def GetValueInt (state : State) (name : String) (ctx : Ctx) : GoResult Int :=
  match getValueState state name ctx with
  | none => .crash
  | some value =>
    match value with
    | .vNil => .err ("value " ++ name ++ " not found")
    | .vInt n => .ok n
    | .vFloat n => .ok n
    | _ => .err ("value " ++ name ++ " cannot be cast to int")

/-- Go `GetValueString`: nil evaluates to a not-found error, `string` is
returned directly, anything else is a cast error. -/
def GetValueString (state : State) (name : String) (ctx : Ctx) : GoResult String :=
  match getValueState state name ctx with
  | none => .crash
  | some value =>
    match value with
    | .vNil => .err ("value " ++ name ++ " not found")
    | .vStr s => .ok s
    | _ => .err ("value " ++ name ++ " cannot be cast to string")

/-- Go `MustGetValueInt`: an unregistered key aborts; the evaluated value is
returned when it is `int` or `float64` (truncated); otherwise the stored
default is returned when it is exactly `int`, and the call aborts when the
default also fails to coerce.  The log line before the fallback is not
modelled. -/
def MustGetValueInt (state : State) (name : String) (ctx : Ctx) : GoResult Int :=
  match alookup state.valueState name with
  | none => .crash
  | some valueState =>
    match getValueState state name ctx with
    | none => .crash
    | some value =>
      match value with
      | .vInt n => .ok n
      | .vFloat n => .ok n
      | _ =>
        match valueState.DefaultValue with
        | .vInt d => .ok d
        | _ => .crash

/-- Go `MustGetValueString`: as `MustGetValueInt` with the `string` type
assertion on the value and on the stored default. -/
def MustGetValueString (state : State) (name : String) (ctx : Ctx) : GoResult String :=
  match alookup state.valueState name with
  | none => .crash
  | some valueState =>
    match getValueState state name ctx with
    | none => .crash
    | some value =>
      match value with
      | .vStr s => .ok s
      | _ =>
        match valueState.DefaultValue with
        | .vStr d => .ok d
        | _ => .crash

/-! ### Sequences of merges (for the version-monotonicity claim) -/

/-- One sync payload: a version with flag and value definitions. -/
abbrev Payload := Int × List FlagResponse × List ValueResponse

/-- Apply a sequence of `State.Update` calls in order. -/
def applyUpdates (s : State) : List Payload → State
  | [] => s
  | p :: ps => applyUpdates (s.Update p.1 p.2.1 p.2.2) ps

/-- Every payload in the sequence carries a version at least the version
stored at the time of its merge. -/
def versionsMono (s : State) : List Payload → Bool
  | [] => true
  | p :: ps => decide (s.version ≤ p.1) && versionsMono (s.Update p.1 p.2.1 p.2.2) ps

/-! ### Helper lemmas -/

theorem opEqual_absent {name : String} {value : GoVal} {ctx : Ctx}
    (h : Ctx.lookup ctx name = none) : opEqual name value ctx = some false := by
  simp [opEqual, h]

theorem opLessThan_absent {name : String} {value : GoVal} {ctx : Ctx}
    (h : Ctx.lookup ctx name = none) : opLessThan name value ctx = some false := by
  simp [opLessThan, h]

theorem opLessOrEqual_absent {name : String} {value : GoVal} {ctx : Ctx}
    (h : Ctx.lookup ctx name = none) : opLessOrEqual name value ctx = some false := by
  simp [opLessOrEqual, h]

theorem opGreaterThan_absent {name : String} {value : GoVal} {ctx : Ctx}
    (h : Ctx.lookup ctx name = none) : opGreaterThan name value ctx = some false := by
  simp [opGreaterThan, h]

theorem opGreaterOrEqual_absent {name : String} {value : GoVal} {ctx : Ctx}
    (h : Ctx.lookup ctx name = none) : opGreaterOrEqual name value ctx = some false := by
  simp [opGreaterOrEqual, h]

theorem opContains_absent {name : String} {value : GoVal} {ctx : Ctx}
    (h : Ctx.lookup ctx name = none) : opContains name value ctx = some false := by
  simp [opContains, h]

theorem opPercent_absent {name : String} {value : GoVal} {ctx : Ctx}
    (h : Ctx.lookup ctx name = none) : opPercent name value ctx = some false := by
  cases htf : toFloat64 value <;> simp [opPercent, htf, h]

theorem opRegexp_absent {name : String} {value : GoVal} {ctx : Ctx}
    (h : Ctx.lookup ctx name = none) : opRegexp name value ctx = some false := by
  simp only [opRegexp]
  split
  · simp [h]
  · rfl

theorem opWildcard_absent {name : String} {value : GoVal} {ctx : Ctx}
    (h : Ctx.lookup ctx name = none) : opWildcard name value ctx = some false :=
  opRegexp_absent h

theorem opSubset_absent {name : String} {value : GoVal} {ctx : Ctx}
    (h : Ctx.lookup ctx name = none) : opSubset name value ctx = some false := by
  cases hts : toStringSlice value with
  | none => simp [opSubset, hts]
  | some l => by_cases he : l.isEmpty <;> simp [opSubset, hts, he, h]

theorem opSuperset_absent {name : String} {value : GoVal} {ctx : Ctx}
    (h : Ctx.lookup ctx name = none) : opSuperset name value ctx = some false := by
  cases hts : toStringSlice value with
  | none => simp [opSuperset, hts]
  | some l => by_cases he : l.isEmpty <;> simp [opSuperset, hts, he, h]

theorem update_version (s : State) (v : Int) (f : List FlagResponse)
    (w : List ValueResponse) : (s.Update v f w).version = v := by
  by_cases h : s.version = v <;> simp [State.Update, h]

/-! ### Claim theorems -/

/-- Claim C3 (confirmed): for a present variable and an integral threshold t
in 0..100, the Percent predicate is true exactly when the little-endian
uint32 read from the last 4 bytes of the MD5 digest of the variable name
concatenated with the string form of the context value, reduced mod 100, is
strictly below t; threshold 0 is always false, threshold 100 always true. -/
theorem opPercent_md5_rollout (name : String) (t : Nat) (ctx : Ctx) (v : GoVal)
    (ht : t ≤ 100) (hv : Ctx.lookup ctx name = some v) :
    (opPercent name (.vInt t) ctx = some true ↔
      fromLE (((md5 (utf8Bytes (name ++ goFormat v))).drop 12).take 4) % 100 < t)
    ∧ (t = 0 → opPercent name (.vInt t) ctx = some false)
    ∧ (t = 100 → opPercent name (.vInt t) ctx = some true) := by
  have hu : goUint32 (t : Int) = t := by
    simp only [goUint32]
    omega
  have hrun : opPercent name (.vInt t) ctx =
      some (decide (hashFlagValue name v % 100 < t)) := by
    simp [opPercent, toFloat64, hv, hu]
  refine ⟨?_, ?_, ?_⟩
  · rw [hrun]
    simp [hashFlagValue]
  · rintro rfl
    rw [hrun]
    simp
  · rintro rfl
    rw [hrun]
    simp [Nat.mod_lt]

/-- Witness for C3 at a concrete variable, threshold and context. -/
theorem opPercent_md5_rollout_witness :
    (50 : Nat) ≤ 100 ∧ Ctx.lookup [("user_id", GoVal.vStr "abc")] "user_id" = some (.vStr "abc") ∧
    ((opPercent "user_id" (.vInt 50) [("user_id", GoVal.vStr "abc")] = some true ↔
      fromLE (((md5 (utf8Bytes ("user_id" ++ goFormat (GoVal.vStr "abc")))).drop 12).take 4) % 100 < 50)
    ∧ (50 = 0 → opPercent "user_id" (.vInt 50) [("user_id", GoVal.vStr "abc")] = some false)
    ∧ (50 = 100 → opPercent "user_id" (.vInt 50) [("user_id", GoVal.vStr "abc")] = some true)) :=
  ⟨by decide, by rfl,
    opPercent_md5_rollout "user_id" 50 [("user_id", GoVal.vStr "abc")] (.vStr "abc")
      (by decide) (by rfl)⟩

/-- Claim C4 (confirmed): for each of the 11 operator codes and any literal,
a compiled check evaluates to false (without error) whenever the named
variable is absent from the context; the empty context models a nil map. -/
theorem checkEval_absent_false (c : Check) (ctx : Ctx)
    (h1 : 1 ≤ c.Operator) (h2 : c.Operator ≤ 11)
    (h : Ctx.lookup ctx c.Variable.Name = none) : checkEval c ctx = some false := by
  obtain ⟨op, var, val⟩ := c
  by_cases hv : val.isNil = true
  · simp [checkEval, hv]
  · simp only [checkEval, if_neg hv]
    simp only at h h1 h2
    interval_cases op
    · exact opEqual_absent h
    · exact opLessThan_absent h
    · exact opLessOrEqual_absent h
    · exact opGreaterThan_absent h
    · exact opGreaterOrEqual_absent h
    · exact opContains_absent h
    · exact opPercent_absent h
    · exact opRegexp_absent h
    · exact opWildcard_absent h
    · exact opSubset_absent h
    · exact opSuperset_absent h

/-- Witness for C4: an Equal check on an empty (nil) context. -/
theorem checkEval_absent_false_witness :
    1 ≤ (Check.mk 1 (CheckVariable.mk "x" 1) (.vInt 3)).Operator ∧
    (Check.mk 1 (CheckVariable.mk "x" 1) (.vInt 3)).Operator ≤ 11 ∧
    Ctx.lookup [] (Check.mk 1 (CheckVariable.mk "x" 1) (.vInt 3)).Variable.Name = none ∧
    checkEval (Check.mk 1 (CheckVariable.mk "x" 1) (.vInt 3)) [] = some false :=
  ⟨by decide, by decide, by rfl,
    checkEval_absent_false (Check.mk 1 (CheckVariable.mk "x" 1) (.vInt 3)) []
      (by decide) (by decide) (by rfl)⟩

/-- Claim C6 (confirmed): a merge carrying the stored version changes
nothing, and merging the same payload twice equals merging it once. -/
theorem update_same_version_noop (s : State) (v : Int) (f : List FlagResponse)
    (w : List ValueResponse) :
    (s.version = v → s.Update v f w = s) ∧
    (s.Update v f w).Update v f w = s.Update v f w := by
  constructor
  · intro h
    simp [State.Update, h]
  · have h := update_version s v f w
    generalize State.Update s v f w = S at h ⊢
    simp [State.Update, h]

/-- Witness for C6 at a concrete state and payload. -/
theorem update_same_version_noop_witness :
    ((State.mk [] [] [] [] 7).version = 7 →
      (State.mk [] [] [] [] 7).Update 7 [] [] = State.mk [] [] [] [] 7) ∧
    ((State.mk [] [] [] [] 7).Update 7 [] []).Update 7 [] [] =
      (State.mk [] [] [] [] 7).Update 7 [] [] :=
  update_same_version_noop (State.mk [] [] [] [] 7) 7 [] []

/-- Counterexample to claim C7 as stated: a merge carrying a version lower
than the stored one lowers the stored version, so the version is not
monotonic over arbitrary Update sequences. -/
theorem update_version_can_decrease_cex :
    ((State.mk [] [] [] [] 5).Update 3 [] []).version < (State.mk [] [] [] [] 5).version := by
  decide

/-- Claim C7 (corrected): `State.Update` installs whatever version it is
given; the stored version never decreases over a sequence of updates
provided every payload carries a version at least the version stored when it
is merged. -/
theorem version_monotone_of_monotone_payloads (s : State) (ps : List Payload)
    (h : versionsMono s ps = true) : s.version ≤ (applyUpdates s ps).version := by
  induction ps generalizing s with
  | nil => simp [applyUpdates]
  | cons p ps ih =>
    simp only [versionsMono, Bool.and_eq_true, decide_eq_true_eq] at h
    have hstep := ih (s.Update p.1 p.2.1 p.2.2) h.2
    rw [update_version] at hstep
    calc s.version ≤ p.1 := h.1
      _ ≤ (applyUpdates (s.Update p.1 p.2.1 p.2.2) ps).version := hstep
      _ = (applyUpdates (s.Update p.1 p.2.1 p.2.2) (p :: ps).tail).version := rfl

/-- Witness for C7 (amended) on a concrete climbing sequence. -/
theorem version_monotone_of_monotone_payloads_witness :
    versionsMono (State.mk [] [] [] [] 1) [(2, [], []), (2, [], []), (5, [], [])] = true ∧
    (State.mk [] [] [] [] 1).version ≤
      (applyUpdates (State.mk [] [] [] [] 1) [(2, [], []), (2, [], []), (5, [], [])]).version :=
  ⟨by decide,
    version_monotone_of_monotone_payloads (State.mk [] [] [] [] 1)
      [(2, [], []), (2, [], []), (5, [], [])] (by decide)⟩

theorem runChecks_true_iff (cs : List Check) (ctx : Ctx) :
    runChecks cs ctx = some true ↔ ∀ c ∈ cs, checkEval c ctx = some true := by
  induction cs with
  | nil => simp [runChecks]
  | cons c rest ih =>
    simp only [runChecks]
    cases hc : checkEval c ctx with
    | none => simp [hc, List.forall_mem_cons]
    | some b => cases b <;> simp [hc, ih, List.forall_mem_cons]

theorem condEval_true_iff (cs : List Check) (ctx : Ctx) :
    condEval cs ctx = some true ↔ cs ≠ [] ∧ ∀ c ∈ cs, checkEval c ctx = some true := by
  cases cs with
  | nil => simp [condEval]
  | cons c rest =>
    rw [show condEval (c :: rest) ctx = runChecks (c :: rest) ctx from rfl,
      runChecks_true_iff]
    simp

theorem orConds_true_iff (cs : List (List Check)) (ctx : Ctx)
    (h : orConds cs ctx ≠ none) :
    (orConds cs ctx = some true ↔ ∃ c ∈ cs, condEval c ctx = some true) := by
  induction cs with
  | nil => simp [orConds]
  | cons c rest ih =>
    simp only [orConds] at h ⊢
    cases hc : condEval c ctx with
    | none => rw [hc] at h; simp at h
    | some b =>
      rw [hc] at h
      cases b
      · simp only at h
        simp [hc, ih h, List.exists_mem_cons_iff]
      · simp [hc, List.exists_mem_cons_iff]

/-- Counterexample to claim C1 as stated: an overridden but disabled flag
with a passing condition compiles to the constant false predicate, not to
the OR of its conditions. -/
theorem flagProc_or_of_ands_cex :
    (flagProc (FlagResponse.mk "f" false true
        [Condition.mk [Check.mk 1 (CheckVariable.mk "x" 1) (GoVal.vInt 1)]])).map
      (fun p => p.eval [("x", GoVal.vInt 1)]) = some (some false) ∧
    ∃ cond ∈ (FlagResponse.mk "f" false true
        [Condition.mk [Check.mk 1 (CheckVariable.mk "x" 1) (GoVal.vInt 1)]]).Conditions,
      cond.Checks ≠ [] ∧ ∀ c ∈ cond.Checks, checkEval c [("x", GoVal.vInt 1)] = some true := by
  constructor
  · rfl
  · refine ⟨Condition.mk [Check.mk 1 (CheckVariable.mk "x" 1) (GoVal.vInt 1)],
      List.mem_singleton_self _, by simp, ?_⟩
    intro c hc
    rw [List.mem_singleton] at hc
    subst hc
    rfl

/-- Claim C1 (corrected): for an overridden, *enabled* flag with a non-empty
condition list, and any context on which the compiled predicate does not
panic, the predicate is true exactly when some condition has a non-empty
check list all of whose checks pass (a condition with zero checks never
passes). -/
theorem flagProc_or_of_ands (flag : FlagResponse) (p : FlagProcR) (ctx : Ctx)
    (hov : flag.Overridden = true) (hen : flag.Enabled = true)
    (hcond : flag.Conditions ≠ [])
    (hp : flagProc flag = some p) (hnp : p.eval ctx ≠ none) :
    (p.eval ctx = some true ↔
      ∃ cond ∈ flag.Conditions, cond.Checks ≠ [] ∧
        ∀ c ∈ cond.Checks, checkEval c ctx = some true) := by
  have hcomp : flagProc flag = some (.conds (flag.Conditions.map (·.Checks))) := by
    simp [flagProc, hov, hen, hcond]
  rw [hcomp] at hp
  injection hp with hp
  subst hp
  simp only [FlagProcR.eval] at hnp ⊢
  rw [orConds_true_iff _ _ hnp]
  simp only [List.mem_map]
  constructor
  · rintro ⟨cs, ⟨cond, hmem, rfl⟩, hcs⟩
    exact ⟨cond, hmem, (condEval_true_iff _ _).mp hcs⟩
  · rintro ⟨cond, hmem, hne, hall⟩
    exact ⟨cond.Checks, ⟨cond, hmem, rfl⟩, (condEval_true_iff _ _).mpr ⟨hne, hall⟩⟩

/-- Witness for C1 (amended) on a concrete enabled flag. -/
theorem flagProc_or_of_ands_witness :
    flagProc (FlagResponse.mk "f" true true
        [Condition.mk [Check.mk 1 (CheckVariable.mk "x" 1) (GoVal.vInt 1)]]) =
      some (FlagProcR.conds [[Check.mk 1 (CheckVariable.mk "x" 1) (GoVal.vInt 1)]]) ∧
    (FlagProcR.conds [[Check.mk 1 (CheckVariable.mk "x" 1) (GoVal.vInt 1)]]).eval
        [("x", GoVal.vInt 1)] ≠ none ∧
    ((FlagProcR.conds [[Check.mk 1 (CheckVariable.mk "x" 1) (GoVal.vInt 1)]]).eval
        [("x", GoVal.vInt 1)] = some true ↔
      ∃ cond ∈ (FlagResponse.mk "f" true true
          [Condition.mk [Check.mk 1 (CheckVariable.mk "x" 1) (GoVal.vInt 1)]]).Conditions,
        cond.Checks ≠ [] ∧
          ∀ c ∈ cond.Checks, checkEval c [("x", GoVal.vInt 1)] = some true) :=
  ⟨by rfl, by decide,
    flagProc_or_of_ands
      (FlagResponse.mk "f" true true
        [Condition.mk [Check.mk 1 (CheckVariable.mk "x" 1) (GoVal.vInt 1)]])
      (FlagProcR.conds [[Check.mk 1 (CheckVariable.mk "x" 1) (GoVal.vInt 1)]])
      [("x", GoVal.vInt 1)] (by rfl) (by rfl) (by simp) (by rfl) (by decide)⟩

theorem firstMatch_eq_find (cs : List (List Check × GoVal)) (base : GoVal) (ctx : Ctx)
    (h : firstMatch cs base ctx ≠ none) :
    firstMatch cs base ctx = some
      (match cs.find? (fun c => condEval c.1 ctx == some true) with
       | some c => c.2
       | none => base) := by
  induction cs with
  | nil => simp [firstMatch, List.find?]
  | cons c rest ih =>
    simp only [firstMatch] at h ⊢
    cases hc : condEval c.1 ctx with
    | none => rw [hc] at h; simp at h
    | some b =>
      rw [hc] at h
      cases b
      · simp only at h
        rw [List.find?_cons_of_neg _ (by simp [hc])]
        simp [hc, ih h]
      · rw [List.find?_cons_of_pos _ (by simp [hc])]

/-- Counterexample to claim C2 as stated: when an earlier condition contains
an Equal check comparing two list values the evaluation panics, so the
override of the (later) first passing condition is not returned. -/
theorem valueProc_first_match_cex :
    (valueProc (ValueResponse.mk "V" true true (GoVal.vStr "D") (GoVal.vStr "B")
        [ValueCondition.mk [Check.mk 1 (CheckVariable.mk "x" 1) (GoVal.vAnyList [])] (GoVal.vStr "P"),
         ValueCondition.mk [Check.mk 1 (CheckVariable.mk "tier" 1) (GoVal.vStr "gold")] (GoVal.vStr "G")])).eval
      [("x", GoVal.vAnyList []), ("tier", GoVal.vStr "gold")] = none ∧
    ∃ cond ∈ (ValueResponse.mk "V" true true (GoVal.vStr "D") (GoVal.vStr "B")
        [ValueCondition.mk [Check.mk 1 (CheckVariable.mk "x" 1) (GoVal.vAnyList [])] (GoVal.vStr "P"),
         ValueCondition.mk [Check.mk 1 (CheckVariable.mk "tier" 1) (GoVal.vStr "gold")] (GoVal.vStr "G")]).Conditions,
      cond.Checks ≠ [] ∧ ∀ c ∈ cond.Checks,
        checkEval c [("x", GoVal.vAnyList []), ("tier", GoVal.vStr "gold")] = some true := by
  constructor
  · rfl
  · refine ⟨ValueCondition.mk [Check.mk 1 (CheckVariable.mk "tier" 1) (GoVal.vStr "gold")] (GoVal.vStr "G"),
      List.mem_cons_of_mem _ (List.mem_singleton_self _), by simp, ?_⟩
    intro c hc
    rw [List.mem_singleton] at hc
    subst hc
    rfl

/-- Claim C2 (corrected): for an overridden, enabled value definition with a
non-empty condition list, on any context where evaluation does not panic,
the evaluator returns the override of the first condition, in declaration
order, whose checks all pass, and the base override value (not the default)
when no condition passes. -/
theorem valueProc_first_match (value : ValueResponse) (ctx : Ctx)
    (hov : value.Overridden = true) (hen : value.Enabled = true)
    (hcond : value.Conditions ≠ [])
    (hnp : (valueProc value).eval ctx ≠ none) :
    (valueProc value).eval ctx = some
      (match value.Conditions.find? (fun c => condEval c.Checks ctx == some true) with
       | some c => c.ValueOverride
       | none => value.ValueOverride) := by
  have hvp : valueProc value =
      .condsV (value.Conditions.map (fun c => (c.Checks, c.ValueOverride)))
        value.ValueOverride := by
    simp [valueProc, hov, hen, hcond]
  rw [hvp] at hnp ⊢
  simp only [ValueProcR.eval] at hnp ⊢
  rw [firstMatch_eq_find _ _ _ hnp]
  rw [List.find?_map]
  have hpc : ((fun (c : List Check × GoVal) => condEval c.1 ctx == some true) ∘
      (fun (c : ValueCondition) => (c.Checks, c.ValueOverride))) =
      (fun c => condEval c.Checks ctx == some true) := rfl
  rw [hpc]
  cases value.Conditions.find? (fun c => condEval c.Checks ctx == some true) <;> rfl

/-- Witness for C2 (amended): the premium/gold example evaluated with
tier = gold returns G, the first matching override. -/
theorem valueProc_first_match_witness :
    (valueProc (ValueResponse.mk "V" true true (GoVal.vStr "D") (GoVal.vStr "B")
        [ValueCondition.mk [Check.mk 1 (CheckVariable.mk "tier" 1) (GoVal.vStr "premium")] (GoVal.vStr "P"),
         ValueCondition.mk [Check.mk 1 (CheckVariable.mk "tier" 1) (GoVal.vStr "gold")] (GoVal.vStr "G")])).eval
      [("tier", GoVal.vStr "gold")] ≠ none ∧
    (valueProc (ValueResponse.mk "V" true true (GoVal.vStr "D") (GoVal.vStr "B")
        [ValueCondition.mk [Check.mk 1 (CheckVariable.mk "tier" 1) (GoVal.vStr "premium")] (GoVal.vStr "P"),
         ValueCondition.mk [Check.mk 1 (CheckVariable.mk "tier" 1) (GoVal.vStr "gold")] (GoVal.vStr "G")])).eval
      [("tier", GoVal.vStr "gold")] = some
      (match (ValueResponse.mk "V" true true (GoVal.vStr "D") (GoVal.vStr "B")
          [ValueCondition.mk [Check.mk 1 (CheckVariable.mk "tier" 1) (GoVal.vStr "premium")] (GoVal.vStr "P"),
           ValueCondition.mk [Check.mk 1 (CheckVariable.mk "tier" 1) (GoVal.vStr "gold")] (GoVal.vStr "G")]).Conditions.find?
          (fun c => condEval c.Checks [("tier", GoVal.vStr "gold")] == some true) with
       | some c => c.ValueOverride
       | none => GoVal.vStr "B") :=
  ⟨by intro h; exact Option.noConfusion h,
    valueProc_first_match
      (ValueResponse.mk "V" true true (GoVal.vStr "D") (GoVal.vStr "B")
        [ValueCondition.mk [Check.mk 1 (CheckVariable.mk "tier" 1) (GoVal.vStr "premium")] (GoVal.vStr "P"),
         ValueCondition.mk [Check.mk 1 (CheckVariable.mk "tier" 1) (GoVal.vStr "gold")] (GoVal.vStr "G")])
      [("tier", GoVal.vStr "gold")] (by rfl) (by rfl) (by simp)
      (by intro h; exact Option.noConfusion h)⟩

/-- The last payload entry named `k`, i.e. the one whose merge survives the
Go range loop. -/
def lastNamedFlag? : List FlagResponse → String → Option FlagResponse
  | [], _ => none
  | f :: rest, k =>
    match lastNamedFlag? rest k with
    | some r => some r
    | none => if f.Name = k then some f else none

/-- The last value payload entry named `k`. -/
def lastNamedValue? : List ValueResponse → String → Option ValueResponse
  | [], _ => none
  | f :: rest, k =>
    match lastNamedValue? rest k with
    | some r => some r
    | none => if f.Name = k then some f else none

theorem alookup_upsert_eq {α : Type} (m : List (String × α)) (k : String) (v : α) :
    alookup (upsert m k v) k = some v := by
  induction m with
  | nil => simp [upsert, alookup]
  | cons p rest ih =>
    obtain ⟨a, w⟩ := p
    by_cases h : a = k <;> simp [upsert, h, alookup, ih]

theorem alookup_upsert_ne {α : Type} (m : List (String × α)) (k q : String) (v : α)
    (h : q ≠ k) : alookup (upsert m k v) q = alookup m q := by
  induction m with
  | nil => simp [upsert, alookup, Ne.symm h]
  | cons p rest ih =>
    obtain ⟨a, w⟩ := p
    simp only [upsert]
    by_cases ha : a = k
    · subst ha
      simp [alookup, Ne.symm h]
    · simp only [if_neg ha]
      by_cases hq : a = q <;> simp [alookup, hq, ih]

theorem foldlFlag_not_named (flags : List FlagResponse) (m : List (String × FlagState))
    (k : String) (h : lastNamedFlag? flags k = none) :
    alookup (flags.foldl updateFlag m) k = alookup m k := by
  induction flags generalizing m with
  | nil => rfl
  | cons f rest ih =>
    have h1 : lastNamedFlag? rest k = none := by
      cases hr : lastNamedFlag? rest k
      · rfl
      · simp [lastNamedFlag?, hr] at h
    have h2 : f.Name ≠ k := by
      intro he
      simp [lastNamedFlag?, h1, he] at h
    rw [List.foldl_cons, ih (updateFlag m f) h1, updateFlag,
      alookup_upsert_ne _ _ _ _ (Ne.symm h2)]

theorem foldlFlag_existing (flags : List FlagResponse) (m : List (String × FlagState))
    (k : String) (fs : FlagState) (h : alookup m k = some fs) :
    alookup (flags.foldl updateFlag m) k = some
      (match lastNamedFlag? flags k with
       | none => fs
       | some fr => FlagState.mk k fs.Enabled (flagProc fr)) := by
  induction flags generalizing m fs with
  | nil => simpa [lastNamedFlag?] using h
  | cons f rest ih =>
    rw [List.foldl_cons]
    by_cases hn : f.Name = k
    · subst hn
      have hm : alookup (updateFlag m f) f.Name =
          some (FlagState.mk f.Name fs.Enabled (flagProc f)) := by
        simp [updateFlag, h, alookup_upsert_eq]
      rw [ih (updateFlag m f) _ hm]
      cases hr : lastNamedFlag? rest f.Name <;> simp [lastNamedFlag?, hr]
    · have hm : alookup (updateFlag m f) k = some fs := by
        rw [updateFlag, alookup_upsert_ne _ _ _ _ (fun he => hn he.symm)]
        exact h
      rw [ih (updateFlag m f) _ hm]
      cases hr : lastNamedFlag? rest k <;> simp [lastNamedFlag?, hr, hn]

theorem foldlValue_not_named (values : List ValueResponse)
    (m : List (String × ValueState)) (k : String)
    (h : lastNamedValue? values k = none) :
    alookup (values.foldl updateValue m) k = alookup m k := by
  induction values generalizing m with
  | nil => rfl
  | cons f rest ih =>
    have h1 : lastNamedValue? rest k = none := by
      cases hr : lastNamedValue? rest k
      · rfl
      · simp [lastNamedValue?, hr] at h
    have h2 : f.Name ≠ k := by
      intro he
      simp [lastNamedValue?, h1, he] at h
    rw [List.foldl_cons, ih (updateValue m f) h1, updateValue,
      alookup_upsert_ne _ _ _ _ (Ne.symm h2)]

theorem foldlValue_existing (values : List ValueResponse)
    (m : List (String × ValueState)) (k : String) (vs : ValueState)
    (h : alookup m k = some vs) :
    alookup (values.foldl updateValue m) k = some
      (match lastNamedValue? values k with
       | none => vs
       | some vr => ValueState.mk k vr.ValueOverride vs.DefaultValue vr.Overridden
           (some (valueProc vr))) := by
  induction values generalizing m vs with
  | nil => simpa [lastNamedValue?] using h
  | cons f rest ih =>
    rw [List.foldl_cons]
    by_cases hn : f.Name = k
    · subst hn
      have hm : alookup (updateValue m f) f.Name =
          some (ValueState.mk f.Name f.ValueOverride vs.DefaultValue f.Overridden
            (some (valueProc f))) := by
        simp [updateValue, h, alookup_upsert_eq]
      rw [ih (updateValue m f) _ hm]
      cases hr : lastNamedValue? rest f.Name <;> simp [lastNamedValue?, hr]
    · have hm : alookup (updateValue m f) k = some vs := by
        rw [updateValue, alookup_upsert_ne _ _ _ _ (fun he => hn he.symm)]
        exact h
      rw [ih (updateValue m f) _ hm]
      cases hr : lastNamedValue? rest k <;> simp [lastNamedValue?, hr, hn]

/-- Claim C5 (confirmed): a version-changing merge keeps the stored default
(flag `Enabled` / value `DefaultValue`) of every already-registered key that
appears in the payload while replacing its current value, override flag and
compiled predicate from the (last) payload entry of that name; keys absent
from the payload keep their entire state. -/
theorem update_frame (s : State) (v : Int) (flags : List FlagResponse)
    (values : List ValueResponse) (hv : s.version ≠ v) :
    (∀ k fs, alookup s.flagState k = some fs →
      alookup (s.Update v flags values).flagState k = some
        (match lastNamedFlag? flags k with
         | none => fs
         | some fr => FlagState.mk k fs.Enabled (flagProc fr)))
    ∧ (∀ k vs, alookup s.valueState k = some vs →
      alookup (s.Update v flags values).valueState k = some
        (match lastNamedValue? values k with
         | none => vs
         | some vr => ValueState.mk k vr.ValueOverride vs.DefaultValue vr.Overridden
             (some (valueProc vr))))
    ∧ (∀ k, lastNamedFlag? flags k = none →
        alookup (s.Update v flags values).flagState k = alookup s.flagState k)
    ∧ (∀ k, lastNamedValue? values k = none →
        alookup (s.Update v flags values).valueState k = alookup s.valueState k) := by
  have hfs : (s.Update v flags values).flagState = flags.foldl updateFlag s.flagState := by
    simp [State.Update, hv]
  have hvs : (s.Update v flags values).valueState = values.foldl updateValue s.valueState := by
    simp [State.Update, hv]
  refine ⟨?_, ?_, ?_, ?_⟩
  · intro k fs h
    rw [hfs]
    exact foldlFlag_existing flags s.flagState k fs h
  · intro k vs h
    rw [hvs]
    exact foldlValue_existing values s.valueState k vs h
  · intro k h
    rw [hfs]
    exact foldlFlag_not_named flags s.flagState k h
  · intro k h
    rw [hvs]
    exact foldlValue_not_named values s.valueState k h

/-- Witness for C5 on a concrete store and payload: the payload overrides
flag f and value V; the flag keeps its default true, the value keeps its
default 30 while its current value, override flag and evaluator are
replaced; the omitted flag g and value W are untouched. -/
theorem update_frame_witness :
    (State.mk [("f", FlagState.mk "f" true none), ("g", FlagState.mk "g" false none)] []
      [("V", ValueState.mk "V" (GoVal.vInt 30) (GoVal.vInt 30) false none),
       ("W", ValueState.mk "W" (GoVal.vStr "w") (GoVal.vStr "w") false none)] [] 0).version ≠ 2 ∧
    alookup ((State.mk [("f", FlagState.mk "f" true none), ("g", FlagState.mk "g" false none)] []
      [("V", ValueState.mk "V" (GoVal.vInt 30) (GoVal.vInt 30) false none),
       ("W", ValueState.mk "W" (GoVal.vStr "w") (GoVal.vStr "w") false none)] [] 0).Update 2
        [FlagResponse.mk "f" true true []]
        [ValueResponse.mk "V" true true (GoVal.vInt 30) (GoVal.vInt 50) []]).flagState "f" =
      some (FlagState.mk "f" true (some (FlagProcR.const true))) ∧
    alookup ((State.mk [("f", FlagState.mk "f" true none), ("g", FlagState.mk "g" false none)] []
      [("V", ValueState.mk "V" (GoVal.vInt 30) (GoVal.vInt 30) false none),
       ("W", ValueState.mk "W" (GoVal.vStr "w") (GoVal.vStr "w") false none)] [] 0).Update 2
        [FlagResponse.mk "f" true true []]
        [ValueResponse.mk "V" true true (GoVal.vInt 30) (GoVal.vInt 50) []]).valueState "V" =
      some (ValueState.mk "V" (GoVal.vInt 50) (GoVal.vInt 30) true
        (some (ValueProcR.const (GoVal.vInt 50)))) ∧
    alookup ((State.mk [("f", FlagState.mk "f" true none), ("g", FlagState.mk "g" false none)] []
      [("V", ValueState.mk "V" (GoVal.vInt 30) (GoVal.vInt 30) false none),
       ("W", ValueState.mk "W" (GoVal.vStr "w") (GoVal.vStr "w") false none)] [] 0).Update 2
        [FlagResponse.mk "f" true true []]
        [ValueResponse.mk "V" true true (GoVal.vInt 30) (GoVal.vInt 50) []]).flagState "g" =
      some (FlagState.mk "g" false none) ∧
    alookup ((State.mk [("f", FlagState.mk "f" true none), ("g", FlagState.mk "g" false none)] []
      [("V", ValueState.mk "V" (GoVal.vInt 30) (GoVal.vInt 30) false none),
       ("W", ValueState.mk "W" (GoVal.vStr "w") (GoVal.vStr "w") false none)] [] 0).Update 2
        [FlagResponse.mk "f" true true []]
        [ValueResponse.mk "V" true true (GoVal.vInt 30) (GoVal.vInt 50) []]).valueState "W" =
      some (ValueState.mk "W" (GoVal.vStr "w") (GoVal.vStr "w") false none) := by
  have h := update_frame
    (State.mk [("f", FlagState.mk "f" true none), ("g", FlagState.mk "g" false none)] []
      [("V", ValueState.mk "V" (GoVal.vInt 30) (GoVal.vInt 30) false none),
       ("W", ValueState.mk "W" (GoVal.vStr "w") (GoVal.vStr "w") false none)] [] 0) 2
    [FlagResponse.mk "f" true true []]
    [ValueResponse.mk "V" true true (GoVal.vInt 30) (GoVal.vInt 50) []] (by decide)
  exact ⟨by decide,
    h.1 "f" (FlagState.mk "f" true none) (by rfl),
    h.2.1 "V" (ValueState.mk "V" (GoVal.vInt 30) (GoVal.vInt 30) false none) (by rfl),
    h.2.2.1 "g" (by rfl),
    h.2.2.2 "W" (by rfl)⟩

/-- Does a dynamic value satisfy the `int`-or-`float64` coercion the getters
apply to the evaluated value? -/
def GoVal.isIntLike : GoVal → Bool
  | .vInt _ => true
  | .vFloat _ => true
  | _ => false

/-- Is a dynamic value exactly a Go `int` (the only shape the Must fallback
accepts for the default)? -/
def GoVal.isIntV : GoVal → Bool
  | .vInt _ => true
  | _ => false

/-- Is a dynamic value a Go `string`? -/
def GoVal.isStrV : GoVal → Bool
  | .vStr _ => true
  | _ => false

/-- Counterexample to claim C8 as stated: a key registered with a string
default makes MustGetValueInt abort even though the key was registered. -/
theorem must_getters_cex :
    alookup (State.mk [] []
      [("k", ValueState.mk "k" (GoVal.vStr "x") (GoVal.vStr "x") false none)] [] 0).valueState
      "k" ≠ none ∧
    MustGetValueInt (State.mk [] []
      [("k", ValueState.mk "k" (GoVal.vStr "x") (GoVal.vStr "x") false none)] [] 0) "k" [] =
      GoResult.crash := by
  constructor
  · intro h
    exact Option.noConfusion h
  · rfl

/-- Claim C8 (corrected): the Must getters abort on a never-registered key,
and abort as well when the compiled evaluation itself panics (an Equal check
on two values of the identical uncomparable dynamic type, claim C9); for a
registered key whose evaluation returns a value they return normally exactly
when that value coerces to the requested type (int or truncated float64 for
the Int getter, string for the String getter) or the stored default has
exactly the requested type, falling back to that immutable default on a
wrong-typed value; when neither coerces they abort. -/
theorem must_getters_registered (s : State) (name : String) (ctx : Ctx) :
    (alookup s.valueState name = none →
      MustGetValueInt s name ctx = GoResult.crash ∧
      MustGetValueString s name ctx = GoResult.crash)
    ∧ (getValueState s name ctx = none →
      MustGetValueInt s name ctx = GoResult.crash ∧
      MustGetValueString s name ctx = GoResult.crash)
    ∧ (∀ vs, alookup s.valueState name = some vs →
      ∀ val, getValueState s name ctx = some val →
        ((∃ n, MustGetValueInt s name ctx = GoResult.ok n) ↔
          (val.isIntLike = true ∨ vs.DefaultValue.isIntV = true))
        ∧ (val.isIntLike = false → ∀ d, vs.DefaultValue = GoVal.vInt d →
            MustGetValueInt s name ctx = GoResult.ok d)
        ∧ ((∃ str, MustGetValueString s name ctx = GoResult.ok str) ↔
          (val.isStrV = true ∨ vs.DefaultValue.isStrV = true))
        ∧ (val.isStrV = false → ∀ d, vs.DefaultValue = GoVal.vStr d →
            MustGetValueString s name ctx = GoResult.ok d)) := by
  refine ⟨?_, ?_, ?_⟩
  · intro h
    simp [MustGetValueInt, MustGetValueString, h]
  · intro h
    cases hvs : alookup s.valueState name with
    | none => simp [MustGetValueInt, MustGetValueString, hvs]
    | some vs => simp [MustGetValueInt, MustGetValueString, hvs, h]
  · intro vs hvs val hval
    refine ⟨?_, ?_, ?_, ?_⟩
    · simp only [MustGetValueInt, hvs, hval]
      cases val <;> cases hdv : vs.DefaultValue <;>
        simp [hdv, GoVal.isIntLike, GoVal.isIntV]
    · intro hnot d hdv
      simp only [MustGetValueInt, hvs, hval, hdv]
      cases val with
      | vInt n => simp [GoVal.isIntLike] at hnot
      | vFloat n => simp [GoVal.isIntLike] at hnot
      | vStr t => rfl
      | vBool b => rfl
      | vStrList xs => rfl
      | vAnyList xs => rfl
      | vMap xs => rfl
      | vNil => rfl
    · simp only [MustGetValueString, hvs, hval]
      cases val <;> cases hdv : vs.DefaultValue <;>
        simp [hdv, GoVal.isStrV]
    · intro hnot d hdv
      simp only [MustGetValueString, hvs, hval, hdv]
      cases val with
      | vStr t => simp [GoVal.isStrV] at hnot
      | vInt n => rfl
      | vFloat n => rfl
      | vBool b => rfl
      | vStrList xs => rfl
      | vAnyList xs => rfl
      | vMap xs => rfl
      | vNil => rfl

/-- Witness for C8 (amended): a registered key with int default 30 and a
string current value falls back to 30. -/
theorem must_getters_registered_witness :
    alookup (State.mk [] []
      [("k", ValueState.mk "k" (GoVal.vStr "x") (GoVal.vInt 30) false none)] [] 0).valueState
      "k" = some (ValueState.mk "k" (GoVal.vStr "x") (GoVal.vInt 30) false none) ∧
    getValueState (State.mk [] []
      [("k", ValueState.mk "k" (GoVal.vStr "x") (GoVal.vInt 30) false none)] [] 0) "k" [] =
      some (GoVal.vStr "x") ∧
    MustGetValueInt (State.mk [] []
      [("k", ValueState.mk "k" (GoVal.vStr "x") (GoVal.vInt 30) false none)] [] 0) "k" [] =
      GoResult.ok 30 := by
  have h := must_getters_registered (State.mk [] []
    [("k", ValueState.mk "k" (GoVal.vStr "x") (GoVal.vInt 30) false none)] [] 0) "k" []
  exact ⟨by rfl, by rfl,
    ((h.2.2 (ValueState.mk "k" (GoVal.vStr "x") (GoVal.vInt 30) false none) (by rfl)
      (GoVal.vStr "x") (by rfl)).2.1 (by decide) 30 (by rfl))⟩

/-- Claim C10 (confirmed): a registered key whose evaluation yields nil gets
the same not-found error from GetValueInt / GetValueString as a key that was
never registered, so at the error-returning interface the two are
indistinguishable. -/
theorem nil_value_not_found (s : State) (name : String) (ctx : Ctx) :
    (∀ vs, alookup s.valueState name = some vs →
      getValueState s name ctx = some GoVal.vNil →
      GetValueInt s name ctx = GoResult.err ("value " ++ name ++ " not found") ∧
      GetValueString s name ctx = GoResult.err ("value " ++ name ++ " not found"))
    ∧ (alookup s.valueState name = none →
      GetValueInt s name ctx = GoResult.err ("value " ++ name ++ " not found") ∧
      GetValueString s name ctx = GoResult.err ("value " ++ name ++ " not found")) := by
  constructor
  · intro vs hvs hval
    simp [GetValueInt, GetValueString, hval]
  · intro h
    simp [GetValueInt, GetValueString, getValueState, h]

/-- Witness for C10: a registered value whose stored current value is nil
and an unregistered key produce the identical error. -/
theorem nil_value_not_found_witness :
    alookup (State.mk [] []
      [("k", ValueState.mk "k" GoVal.vNil GoVal.vNil false none)] [] 0).valueState "k" =
      some (ValueState.mk "k" GoVal.vNil GoVal.vNil false none) ∧
    getValueState (State.mk [] []
      [("k", ValueState.mk "k" GoVal.vNil GoVal.vNil false none)] [] 0) "k" [] =
      some GoVal.vNil ∧
    (GetValueInt (State.mk [] []
      [("k", ValueState.mk "k" GoVal.vNil GoVal.vNil false none)] [] 0) "k" [] =
      GoResult.err ("value " ++ "k" ++ " not found") ∧
    GetValueString (State.mk [] []
      [("k", ValueState.mk "k" GoVal.vNil GoVal.vNil false none)] [] 0) "k" [] =
      GoResult.err ("value " ++ "k" ++ " not found")) ∧
    alookup (State.mk [] [] [] [] 0).valueState "k" = none ∧
    (GetValueInt (State.mk [] [] [] [] 0) "k" [] =
      GoResult.err ("value " ++ "k" ++ " not found") ∧
    GetValueString (State.mk [] [] [] [] 0) "k" [] =
      GoResult.err ("value " ++ "k" ++ " not found")) :=
  ⟨by rfl, by rfl,
    (nil_value_not_found (State.mk [] []
      [("k", ValueState.mk "k" GoVal.vNil GoVal.vNil false none)] [] 0) "k" []).1
      (ValueState.mk "k" GoVal.vNil GoVal.vNil false none) (by rfl) (by rfl),
    by rfl,
    (nil_value_not_found (State.mk [] [] [] [] 0) "k" []).2 (by rfl)⟩

/-! ### Panic analysis for claim C9 -/

theorem opLessThan_ne_none (name : String) (value : GoVal) (ctx : Ctx) :
    opLessThan name value ctx ≠ none := by
  simp only [opLessThan]
  split
  · simp
  · split <;> simp

theorem opLessOrEqual_ne_none (name : String) (value : GoVal) (ctx : Ctx) :
    opLessOrEqual name value ctx ≠ none := by
  simp only [opLessOrEqual]
  split
  · simp
  · split <;> simp

theorem opGreaterThan_ne_none (name : String) (value : GoVal) (ctx : Ctx) :
    opGreaterThan name value ctx ≠ none := by
  simp only [opGreaterThan]
  split
  · simp
  · split <;> simp

theorem opGreaterOrEqual_ne_none (name : String) (value : GoVal) (ctx : Ctx) :
    opGreaterOrEqual name value ctx ≠ none := by
  simp only [opGreaterOrEqual]
  split
  · simp
  · split <;> simp

theorem opContains_ne_none (name : String) (value : GoVal) (ctx : Ctx) :
    opContains name value ctx ≠ none := by
  simp only [opContains]
  cases Ctx.lookup ctx name with
  | none => simp
  | some v => simp

theorem opPercent_ne_none (name : String) (value : GoVal) (ctx : Ctx) :
    opPercent name value ctx ≠ none := by
  simp only [opPercent]
  cases toFloat64 value with
  | none => simp
  | some t => cases Ctx.lookup ctx name <;> simp

theorem opRegexp_ne_none (name : String) (value : GoVal) (ctx : Ctx) :
    opRegexp name value ctx ≠ none := by
  simp only [opRegexp]
  split
  · cases Ctx.lookup ctx name <;> simp
  · simp

theorem opWildcard_ne_none (name : String) (value : GoVal) (ctx : Ctx) :
    opWildcard name value ctx ≠ none :=
  opRegexp_ne_none name _ ctx

theorem opSubset_ne_none (name : String) (value : GoVal) (ctx : Ctx) :
    opSubset name value ctx ≠ none := by
  simp only [opSubset]
  split
  · simp
  · split
    · simp
    · split
      · simp
      · split <;> simp

theorem opSuperset_ne_none (name : String) (value : GoVal) (ctx : Ctx) :
    opSuperset name value ctx ≠ none := by
  simp only [opSuperset]
  split
  · simp
  · split
    · simp
    · split
      · simp
      · split <;> simp

theorem goEq_none_iff (a b : GoVal) : goEq a b = none ↔ goUncomparable a b = true := by
  simp only [goEq]
  split <;> simp_all

theorem checkEval_none_char (c : Check) (ctx : Ctx) (h : checkEval c ctx = none) :
    c.Operator = 1 ∧
      ∃ v, Ctx.lookup ctx c.Variable.Name = some v ∧ goUncomparable v c.Value = true := by
  obtain ⟨op, var, val⟩ := c
  simp only [checkEval] at h
  by_cases hv : val.isNil = true
  · rw [if_pos hv] at h
    exact Option.noConfusion h
  · rw [if_neg hv] at h
    rcases op with _ | _ | _ | _ | _ | _ | _ | _ | _ | _ | _ | _ | op
    · exact Option.noConfusion h
    · refine ⟨rfl, ?_⟩
      simp only [opEqual] at h
      cases hl : Ctx.lookup ctx var.Name with
      | none => rw [hl] at h; exact Option.noConfusion h
      | some v =>
        rw [hl] at h
        exact ⟨v, rfl, (goEq_none_iff v val).mp h⟩
    · exact absurd h (opLessThan_ne_none _ _ _)
    · exact absurd h (opLessOrEqual_ne_none _ _ _)
    · exact absurd h (opGreaterThan_ne_none _ _ _)
    · exact absurd h (opGreaterOrEqual_ne_none _ _ _)
    · exact absurd h (opContains_ne_none _ _ _)
    · exact absurd h (opPercent_ne_none _ _ _)
    · exact absurd h (opRegexp_ne_none _ _ _)
    · exact absurd h (opWildcard_ne_none _ _ _)
    · exact absurd h (opSubset_ne_none _ _ _)
    · exact absurd h (opSuperset_ne_none _ _ _)
    · exact Option.noConfusion h

theorem runChecks_ne_none (cs : List Check) (ctx : Ctx)
    (h : ∀ c ∈ cs, checkEval c ctx ≠ none) : runChecks cs ctx ≠ none := by
  induction cs with
  | nil => simp [runChecks]
  | cons c rest ih =>
    simp only [runChecks]
    cases hc : checkEval c ctx with
    | none => exact absurd hc (h c (List.mem_cons_self c rest))
    | some b =>
      cases b
      · simp
      · exact ih (fun x hx => h x (List.mem_cons_of_mem c hx))

theorem condEval_ne_none (cs : List Check) (ctx : Ctx)
    (h : ∀ c ∈ cs, checkEval c ctx ≠ none) : condEval cs ctx ≠ none := by
  cases cs with
  | nil => simp [condEval]
  | cons c rest => exact runChecks_ne_none _ _ h

theorem orConds_ne_none (cs : List (List Check)) (ctx : Ctx)
    (h : ∀ c ∈ cs.flatten, checkEval c ctx ≠ none) : orConds cs ctx ≠ none := by
  induction cs with
  | nil => simp [orConds]
  | cons cond rest ih =>
    simp only [orConds]
    have hcond : condEval cond ctx ≠ none :=
      condEval_ne_none _ _
        (fun c hc => h c (List.mem_flatten.mpr ⟨cond, List.mem_cons_self _ _, hc⟩))
    cases he : condEval cond ctx with
    | none => exact absurd he hcond
    | some b =>
      cases b
      · exact ih (fun c hc => by
          rcases List.mem_flatten.mp hc with ⟨l, hl, hcl⟩
          exact h c (List.mem_flatten.mpr ⟨l, List.mem_cons_of_mem _ hl, hcl⟩))
      · simp

theorem firstMatch_ne_none (cs : List (List Check × GoVal)) (base : GoVal) (ctx : Ctx)
    (h : ∀ c ∈ (cs.map Prod.fst).flatten, checkEval c ctx ≠ none) :
    firstMatch cs base ctx ≠ none := by
  induction cs with
  | nil => simp [firstMatch]
  | cons p rest ih =>
    simp only [firstMatch]
    have hcond : condEval p.1 ctx ≠ none :=
      condEval_ne_none _ _
        (fun c hc => h c (List.mem_flatten.mpr ⟨p.1, by simp, hc⟩))
    cases he : condEval p.1 ctx with
    | none => exact absurd he hcond
    | some b =>
      cases b
      · exact ih (fun c hc => by
          rcases List.mem_flatten.mp hc with ⟨l, hl, hcl⟩
          rcases List.mem_map.mp hl with ⟨q, hq, rfl⟩
          refine h c (List.mem_flatten.mpr ⟨q.1, ?_, hcl⟩)
          exact List.mem_map.mpr ⟨q, List.mem_cons_of_mem _ hq, rfl⟩)
      · simp

/-- All checks occurring in a compiled flag predicate. -/
def FlagProcR.allChecks : FlagProcR → List Check
  | .const _ => []
  | .conds cs => cs.flatten

/-- All checks occurring in a compiled value evaluator. -/
def ValueProcR.allChecks : ValueProcR → List Check
  | .const _ => []
  | .condsV cs _ => (cs.map Prod.fst).flatten

/-- The checks a flag read with this name can run. -/
def State.flagChecks (s : State) (name : String) : List Check :=
  match alookup s.flagState name with
  | none => []
  | some fs =>
    match fs.Proc with
    | none => []
    | some p => p.allChecks

/-- The checks a value read with this name can run. -/
def State.valueChecks (s : State) (name : String) : List Check :=
  match alookup s.valueState name with
  | none => []
  | some vs =>
    match vs.Proc with
    | none => []
    | some p => p.allChecks

theorem getFlagState_ne_none (s : State) (name : String) (ctx : Ctx)
    (h : ∀ c ∈ s.flagChecks name, checkEval c ctx ≠ none) :
    getFlagState s name ctx ≠ none := by
  simp only [getFlagState]
  cases hl : alookup s.flagState name with
  | none => simp
  | some fs =>
    obtain ⟨nm, en, pr⟩ := fs
    cases pr with
    | none => simp
    | some p =>
      cases p with
      | const b => simp [FlagProcR.eval]
      | conds cs =>
        have heq : s.flagChecks name = cs.flatten := by
          simp [State.flagChecks, hl, FlagProcR.allChecks]
        exact orConds_ne_none cs ctx (heq ▸ h)

theorem getValueState_ne_none (s : State) (name : String) (ctx : Ctx)
    (h : ∀ c ∈ s.valueChecks name, checkEval c ctx ≠ none) :
    getValueState s name ctx ≠ none := by
  simp only [getValueState]
  cases hl : alookup s.valueState name with
  | none => simp
  | some vs =>
    obtain ⟨nm, va, dv, ov, pr⟩ := vs
    cases pr with
    | none => simp
    | some p =>
      cases p with
      | const v => simp [ValueProcR.eval]
      | condsV cs base =>
        have heq : s.valueChecks name = (cs.map Prod.fst).flatten := by
          simp [State.valueChecks, hl, ValueProcR.allChecks]
        exact firstMatch_ne_none cs base ctx (heq ▸ h)

/-- Counterexample to claim C9 as stated: a server-supplied Equal check
whose literal is a JSON array (a `[]any`), read with a context holding a
`[]any` for that variable, panics past the Get accessor; likewise a JSON
object literal (a `map[string]any`) against a caller-supplied map.
Interface comparison of two values of the identical uncomparable dynamic
type is a run-time panic and nothing recovers it. -/
theorem reads_no_crash_cex :
    Get ((State.mk [("f", FlagState.mk "f" false none)] [] [] [] 0).Update 1
        [FlagResponse.mk "f" true true
          [Condition.mk [Check.mk 1 (CheckVariable.mk "x" 1) (GoVal.vAnyList [])]]] [])
      "f" [("x", GoVal.vAnyList [])] = GoResult.crash ∧
    Get ((State.mk [("g", FlagState.mk "g" false none)] [] [] [] 0).Update 1
        [FlagResponse.mk "g" true true
          [Condition.mk [Check.mk 1 (CheckVariable.mk "y" 1)
            (GoVal.vMap [("k", GoVal.vStr "v")])]]] [])
      "g" [("y", GoVal.vMap [("k", GoVal.vStr "v")])] = GoResult.crash := by
  exact ⟨rfl, rfl⟩

/-- Claim C9 (corrected): flag and value reads never panic provided no
compiled Equal check compares two values of the identical uncomparable
dynamic type (both slice-of-string, both slice-of-any, or both map) on the
given context; the only panic source in a compiled predicate is an Equal
check (operator 1) whose looked-up context value and literal form such a
pair.  The Must getters are settled separately (claim C8). -/
theorem reads_no_crash (s : State) (name : String) (ctx : Ctx)
    (hf : ∀ c ∈ s.flagChecks name, checkEval c ctx ≠ none)
    (hv : ∀ c ∈ s.valueChecks name, checkEval c ctx ≠ none) :
    (Get s name ctx ≠ GoResult.crash ∧ GetValue s name ctx ≠ GoResult.crash ∧
     GetValueInt s name ctx ≠ GoResult.crash ∧
     GetValueString s name ctx ≠ GoResult.crash)
    ∧ (∀ (c : Check) (ctx2 : Ctx), checkEval c ctx2 = none →
        c.Operator = 1 ∧
          ∃ v, Ctx.lookup ctx2 c.Variable.Name = some v ∧
            goUncomparable v c.Value = true) := by
  have hgf := getFlagState_ne_none s name ctx hf
  have hgv := getValueState_ne_none s name ctx hv
  refine ⟨⟨?_, ?_, ?_, ?_⟩, fun c ctx2 h => checkEval_none_char c ctx2 h⟩
  · simp only [Get]
    cases hg : getFlagState s name ctx with
    | none => exact absurd hg hgf
    | some b => simp
  · simp only [GetValue]
    cases hg : getValueState s name ctx with
    | none => exact absurd hg hgv
    | some v => simp
  · simp only [GetValueInt]
    cases hg : getValueState s name ctx with
    | none => exact absurd hg hgv
    | some v => cases v <;> simp
  · simp only [GetValueString]
    cases hg : getValueState s name ctx with
    | none => exact absurd hg hgv
    | some v => cases v <;> simp

/-- Witness for C9 (amended) on a concrete overridden flag and value whose
checks compare values of comparable dynamic types. -/
theorem reads_no_crash_witness :
    (∀ c ∈ State.flagChecks (State.mk
        [("f", FlagState.mk "f" true (some (FlagProcR.conds
          [[Check.mk 1 (CheckVariable.mk "x" 1) (GoVal.vInt 1)]])))] []
        [("V", ValueState.mk "V" (GoVal.vInt 1) (GoVal.vInt 1) false none)] [] 0) "f",
      checkEval c [("x", GoVal.vInt 1)] ≠ none) ∧
    (∀ c ∈ State.valueChecks (State.mk
        [("f", FlagState.mk "f" true (some (FlagProcR.conds
          [[Check.mk 1 (CheckVariable.mk "x" 1) (GoVal.vInt 1)]])))] []
        [("V", ValueState.mk "V" (GoVal.vInt 1) (GoVal.vInt 1) false none)] [] 0) "f",
      checkEval c [("x", GoVal.vInt 1)] ≠ none) ∧
    ((Get (State.mk
        [("f", FlagState.mk "f" true (some (FlagProcR.conds
          [[Check.mk 1 (CheckVariable.mk "x" 1) (GoVal.vInt 1)]])))] []
        [("V", ValueState.mk "V" (GoVal.vInt 1) (GoVal.vInt 1) false none)] [] 0)
        "f" [("x", GoVal.vInt 1)] ≠ GoResult.crash ∧
      GetValue (State.mk
        [("f", FlagState.mk "f" true (some (FlagProcR.conds
          [[Check.mk 1 (CheckVariable.mk "x" 1) (GoVal.vInt 1)]])))] []
        [("V", ValueState.mk "V" (GoVal.vInt 1) (GoVal.vInt 1) false none)] [] 0)
        "f" [("x", GoVal.vInt 1)] ≠ GoResult.crash ∧
      GetValueInt (State.mk
        [("f", FlagState.mk "f" true (some (FlagProcR.conds
          [[Check.mk 1 (CheckVariable.mk "x" 1) (GoVal.vInt 1)]])))] []
        [("V", ValueState.mk "V" (GoVal.vInt 1) (GoVal.vInt 1) false none)] [] 0)
        "f" [("x", GoVal.vInt 1)] ≠ GoResult.crash ∧
      GetValueString (State.mk
        [("f", FlagState.mk "f" true (some (FlagProcR.conds
          [[Check.mk 1 (CheckVariable.mk "x" 1) (GoVal.vInt 1)]])))] []
        [("V", ValueState.mk "V" (GoVal.vInt 1) (GoVal.vInt 1) false none)] [] 0)
        "f" [("x", GoVal.vInt 1)] ≠ GoResult.crash)
    ∧ (∀ (c : Check) (ctx2 : Ctx), checkEval c ctx2 = none →
        c.Operator = 1 ∧
          ∃ v, Ctx.lookup ctx2 c.Variable.Name = some v ∧
            goUncomparable v c.Value = true)) :=
  ⟨by decide, by decide,
    reads_no_crash (State.mk
        [("f", FlagState.mk "f" true (some (FlagProcR.conds
          [[Check.mk 1 (CheckVariable.mk "x" 1) (GoVal.vInt 1)]])))] []
        [("V", ValueState.mk "V" (GoVal.vInt 1) (GoVal.vInt 1) false none)] [] 0)
      "f" [("x", GoVal.vInt 1)] (by decide) (by decide)⟩

end FeatureFlags
